import Mathlib

/-!
Verification of the pack-file read path of tiny-commit-walker
(src/lib/pack.ts), shallowly embedded in Lean 4.

Node.js Buffers are modelled as lists of bytes.  Plain indexing past the
end of a Buffer yields undefined in JS, which behaves as 0 in the bitwise
arithmetic the source uses, so it is modelled by List.getD _ 0; the
checked readUIntXXBE accessors throw a RangeError when the requested span
is out of bounds, modelled as Except.error.

The filesystem, zlib, and the external delta collaborators (patchDelta,
readBaseOffset from src/lib/delta.ts, out of scope per the spec) are
modelled as explicit environments of pure functions, and every file
operation performed is recorded in an I/O log so that claims about the
absence or order of I/O can be stated.
-/

namespace TinyCommitWalker

set_option maxRecDepth 16384

abbrev Bytes := List Nat

deriving instance DecidableEq for Except

/-- Node Buffer.readUInt16BE: big-endian 16-bit read with bounds check. -/
def readUInt16BE (buff : Bytes) (off : Nat) : Except String Nat :=
  if off + 2 ≤ buff.length then
    .ok (buff.getD off 0 * 256 + buff.getD (off + 1) 0)
  else .error "Index out of range"

/-- Node Buffer.readUInt32BE: big-endian 32-bit read with bounds check. -/
def readUInt32BE (buff : Bytes) (off : Nat) : Except String Nat :=
  if off + 4 ≤ buff.length then
    .ok (buff.getD off 0 * 16777216 + buff.getD (off + 1) 0 * 65536 +
         buff.getD (off + 2) 0 * 256 + buff.getD (off + 3) 0)
  else .error "Index out of range"

/-- One lower-case hexadecimal digit, as in Buffer.toString applied to hex. -/
def hexDigit (n : Nat) : Char :=
  if n < 10 then Char.ofNat (48 + n) else Char.ofNat (87 + n)

/-- Hex rendering of one byte (two lower-case digits). -/
def byteToHex (b : Nat) : List Char :=
  [hexDigit (b % 256 / 16), hexDigit (b % 16)]

/-- Buffer.toString hex rendering of a byte list. -/
def bytesToHex (bs : Bytes) : String :=
  String.mk (bs.map byteToHex).flatten

/-- readHash (pack.ts:321-323): hex string of the 20 bytes of buff
starting at offset; Buffer.slice clamps at the end of the buffer. -/
def readHash (buff : Bytes) (offset : Nat) : String :=
  bytesToHex ((buff.drop offset).take 20)

/-- Decoded object header (class PackedObject, pack.ts:40-60). -/
structure PackedObject where
  type : Nat
  size : Nat
  offset : Nat
deriving DecidableEq, Repr

/-- The while loop of the PackedObject constructor (pack.ts:51-55):
c is the most recently read byte, rest the bytes not yet consumed,
offset/size/x the loop variables.  Reading past the end of the 32-byte
lookahead buffer yields undefined, which contributes 0 and clears the
continuation flag, modelled by the nil case. -/
def headerLoop : Bytes → Nat → Nat → Nat → Nat → Nat × Nat
  | rest, c, offset, size, x =>
    if c &&& 0x80 = 0 then (size, offset)
    else
      match rest with
      | [] => (size, offset + 1)
      | c2 :: rest2 =>
          headerLoop rest2 c2 (offset + 1) (size + (c2 &&& 0x7f) * x) (x * 128)

/-- The PackedObject constructor (pack.ts:45-59): byte 0's low 4 bits seed
size, bits 4-6 give the type code, then the continuation loop runs. -/
def parsePackedObject (buff : Bytes) : PackedObject :=
  let c := buff.getD 0 0
  { type := (c >>> 4) &&& 7,
    size := (headerLoop (buff.drop 1) c 1 (c &&& 15) 16).1,
    offset := (headerLoop (buff.drop 1) c 1 (c &&& 15) 16).2 }

/-- Number of continuation bytes the header loop consumes after byte 0:
0 when the flag bit of the previous byte is clear, and when the buffer is
exhausted with the flag still set one final undefined byte is consumed. -/
def contCount : Nat → Bytes → Nat
  | c, [] => if c &&& 0x80 = 0 then 0 else 1
  | c, c2 :: rest => if c &&& 0x80 = 0 then 0 else 1 + contCount c2 rest

/-- Location of one object inside a pack file (interface PackedIndex,
pack.ts:33-36). -/
structure PackedIndex where
  offset : Nat
  fileIndex : Nat
deriving DecidableEq, Repr

/-- PackedIndexMap (pack.ts:38): a JS Map from hash hex string to
PackedIndex, modelled as an association list where Map.set prepends and
lookup takes the most recent binding. -/
abbrev PackedIndexMap := List (String × PackedIndex)

def mapSet (m : PackedIndexMap) (k : String) (v : PackedIndex) : PackedIndexMap :=
  (k, v) :: m

def mapLookup (m : PackedIndexMap) (k : String) : Option PackedIndex :=
  (m.find? (fun e => e.1 == k)).map (·.2)

/-- The version-2 entry loop of setupPackedIndexMap (pack.ts:77-88),
including its treatment of a 32-bit offset entry with the high bit set:
it reads a 32-bit value at byte position off64 * 4294967296 and adds the
16-bit value at off64 + 4, then advances off64 by 8. -/
def setupV2Loop (buff : Bytes) (fileIndex : Nat) :
    Nat → Nat → Nat → Nat → PackedIndexMap → Except String PackedIndexMap
  | 0, _, _, _, m => .ok m
  | i + 1, index, off32, off64, m => do
      let hash := readHash buff index
      let o ← readUInt32BE buff off32
      if o &&& 0x80000000 ≠ 0 then do
        let o1 ← readUInt32BE buff (off64 * 4294967296)
        let o2 ← readUInt16BE buff (off64 + 4)
        setupV2Loop buff fileIndex i (index + 20) (off32 + 4) (off64 + 8)
          (mapSet m hash ⟨o1 + o2, fileIndex⟩)
      else
        setupV2Loop buff fileIndex i (index + 20) (off32 + 4) off64
          (mapSet m hash ⟨o, fileIndex⟩)

/-- The version-1 entry loop of setupPackedIndexMap (pack.ts:90-95). -/
def setupV1Loop (buff : Bytes) (fileIndex : Nat) :
    Nat → Nat → PackedIndexMap → Except String PackedIndexMap
  | 0, _, m => .ok m
  | i + 1, index, m => do
      let o ← readUInt32BE buff index
      let hash := readHash buff (index + 4)
      setupV1Loop buff fileIndex i (index + 24) (mapSet m hash ⟨o, fileIndex⟩)

/-- setupPackedIndexMap (pack.ts:62-97): version detection by the magic
constant, object count from the final fan-out entry, then the
version-specific entry loop. -/
def setupPackedIndexMap (buff : Bytes) (fileIndex : Nat) (m : PackedIndexMap) :
    Except String PackedIndexMap := do
  let magic ← readUInt32BE buff 0
  let vi ←
    if magic = 0xff744f63 then do
      let v ← readUInt32BE buff 4
      pure (v, 255 * 4 + 8)
    else
      pure (1, 255 * 4)
  let idxVersion := vi.1
  let n ← readUInt32BE buff vi.2
  let index := vi.2 + 4
  if idxVersion > 1 then
    setupV2Loop buff fileIndex n index (index + n * 24) (index + n * 24 + n * 4) m
  else
    setupV1Loop buff fileIndex n index m

/-- Node Buffer big-endian 64-bit read with bounds check (only needed by
the documented-format model below; the source never performs one). -/
def readUInt64BE (buff : Bytes) (off : Nat) : Except String Nat :=
  if off + 8 ≤ buff.length then
    .ok (buff.getD off 0 * 72057594037927936 + buff.getD (off + 1) 0 * 281474976710656 +
         buff.getD (off + 2) 0 * 1099511627776 + buff.getD (off + 3) 0 * 4294967296 +
         buff.getD (off + 4) 0 * 16777216 + buff.getD (off + 5) 0 * 65536 +
         buff.getD (off + 6) 0 * 256 + buff.getD (off + 7) 0)
  else .error "Index out of range"

/-- Modelled from the spec: the documented version-2 layout for entries
whose 32-bit offset has the high bit set — the true offset is the 8-byte
big-endian value in the 64-bit offset table at the table index given by
the lower 31 bits of the 32-bit entry.  Identical to setupV2Loop
otherwise; off64 here is the fixed base of the 64-bit table. -/
def setupV2LoopSpec (buff : Bytes) (fileIndex : Nat) :
    Nat → Nat → Nat → Nat → PackedIndexMap → Except String PackedIndexMap
  | 0, _, _, _, m => .ok m
  | i + 1, index, off32, off64, m => do
      let hash := readHash buff index
      let o ← readUInt32BE buff off32
      if o &&& 0x80000000 ≠ 0 then do
        let k := o &&& 0x7fffffff
        let o64 ← readUInt64BE buff (off64 + 8 * k)
        setupV2LoopSpec buff fileIndex i (index + 20) (off32 + 4) off64
          (mapSet m hash ⟨o64, fileIndex⟩)
      else
        setupV2LoopSpec buff fileIndex i (index + 20) (off32 + 4) off64
          (mapSet m hash ⟨o, fileIndex⟩)

/-- Modelled from the spec: setupPackedIndexMap with the documented
64-bit offset lookup in place of the defective arithmetic. -/
def setupPackedIndexMapSpec (buff : Bytes) (fileIndex : Nat) (m : PackedIndexMap) :
    Except String PackedIndexMap := do
  let magic ← readUInt32BE buff 0
  let vi ←
    if magic = 0xff744f63 then do
      let v ← readUInt32BE buff 4
      pure (v, 255 * 4 + 8)
    else
      pure (1, 255 * 4)
  let idxVersion := vi.1
  let n ← readUInt32BE buff vi.2
  let index := vi.2 + 4
  if idxVersion > 1 then
    setupV2LoopSpec buff fileIndex n index (index + n * 24) (index + n * 24 + n * 4) m
  else
    setupV1Loop buff fileIndex n index m

/-- A minimal version-2 index file: magic, version 2, a fan-out table
whose final entry records one object, one all-zero 20-byte hash, one CRC
entry, a 32-bit offset entry with the high bit set and lower 31 bits 0,
and a 64-bit offset table whose entry 0 holds 2 ^ 32. -/
def idxBuf0 : Bytes :=
  [0xff, 0x74, 0x4f, 0x63] ++ [0, 0, 0, 2] ++
  (List.replicate 1020 0 ++ [0, 0, 0, 1]) ++
  List.replicate 20 0 ++
  [0, 0, 0, 0] ++
  [0x80, 0, 0, 0] ++
  [0, 0, 0, 1, 0, 0, 0, 0]

/-- The error taxonomy of the resolution path: the thrown Errors
"<hash> is not found." (pack.ts:181), "<type> is a invalid object type."
(pack.ts:254/282) and a propagated zlib error with its errno
(pack.ts:331/344).  outOfFuel is an artifact of the bounded model of the
unbounded recursion. -/
inductive PackError where
  | notFound (hash : String)
  | invalidObjectType (t : Nat)
  | zlibError (errno : Int)
  | outOfFuel
deriving DecidableEq, Repr

/-- One pack-file operation, recorded in the order performed. -/
inductive IOEvent where
  | openPack (fileIndex : Nat)
  | readPack (fileIndex : Nat) (pos : Nat) (len : Nat)
  | closePack (fileIndex : Nat)
deriving DecidableEq, Repr

/-- External effects, as pure oracles: readAt fileIndex pos len is the
content of the length-len buffer after fs.read on that pack file at that
position; inflate is zlib.inflate (errno on failure, -5 meaning the
output buffer was too small); patchDelta and readBaseOffset are the
collaborators imported from src/lib/delta.ts, out of scope per the spec,
so they are left entirely abstract. -/
structure Env where
  readAt : Nat → Nat → Nat → Bytes
  inflate : Bytes → Except Int Bytes
  patchDelta : Bytes → Bytes → Bytes
  readBaseOffset : Bytes → Nat → Nat × Nat

/-- The per-store DecodedObjectCache (_packedObjectCache, pack.ts:103):
a JS Map keyed by the string fileIndex:offset, modelled by the key pair
itself (the string rendering is injective on pairs of naturals). -/
abbrev Cache := List ((Nat × Nat) × Bytes)

def cacheGet (c : Cache) (idx : PackedIndex) : Option Bytes :=
  (c.find? (fun e => e.1 == (idx.fileIndex, idx.offset))).map (·.2)

def cacheSet (c : Cache) (idx : PackedIndex) (b : Bytes) : Cache :=
  ((idx.fileIndex, idx.offset), b) :: c

/-- The immutable part of a Packs instance (pack.ts:101-111); the
mutable _packedObjectCache is threaded separately as a Cache value. -/
structure Packs where
  packDir : String
  packFileNames : List String
  packedIndexMap : PackedIndexMap
deriving DecidableEq, Repr

/-- hasPackFiles (pack.ts:110): double negation of the list length. -/
def Packs.hasPackFiles (p : Packs) : Bool :=
  !p.packFileNames.isEmpty

/-- inf (pack.ts:338-349) and infSync (pack.ts:325-336), which differ
only in await: allocate size bytes, read them at the payload offset,
inflate; on errno -5 retry with size + 128 from the same position, on
any other errno rethrow.  Fuel bounds the retry recursion. -/
def inf (env : Env) (idx : PackedIndex) (po : PackedObject) :
    Nat → Nat → Except PackError Bytes × List IOEvent
  | 0, _ => (.error .outOfFuel, [])
  | fuel + 1, size =>
    let buff := env.readAt idx.fileIndex (idx.offset + po.offset) size
    let ev := IOEvent.readPack idx.fileIndex (idx.offset + po.offset) size
    match env.inflate buff with
    | .ok b => (.ok b, [ev])
    | .error errno =>
      if errno = -5 then
        let r := inf env idx po fuel (size + 128)
        (r.1, ev :: r.2)
      else (.error (.zlibError errno), [ev])

/-- A call to inf without the size argument uses the default
po.size * 2 + 32 (pack.ts:325/338). -/
def infDefault (env : Env) (idx : PackedIndex) (po : PackedObject) (fuel : Nat) :
    Except PackError Bytes × List IOEvent :=
  inf env idx po fuel (po.size * 2 + 32)

mutual

/-- unpackGitObject (pack.ts:198-213) and unpackGitObjectSync
(pack.ts:215-230), which differ only in await: index lookup (throwing
notFound when absent), DecodedObjectCache check, then open the pack
file, dispatch to _unpackGitObject, and close the file on every exit
path (finally). -/
def unpackGitObject (env : Env) (st : Packs) (fuel : Nat) (cache : Cache)
    (hash : String) : Except PackError Bytes × Cache × List IOEvent :=
  match fuel with
  | 0 => (.error .outOfFuel, cache, [])
  | f + 1 =>
    match mapLookup st.packedIndexMap hash with
    | none => (.error (.notFound hash), cache, [])
    | some idx =>
      match cacheGet cache idx with
      | some dst => (.ok dst, cache, [])
      | none =>
        let r := _unpackGitObject env st f cache idx
        (r.1, r.2.1,
         IOEvent.openPack idx.fileIndex :: r.2.2 ++ [IOEvent.closePack idx.fileIndex])
termination_by structural fuel

/-- _unpackGitObject (pack.ts:232-258) and _unpackGitObjectSync
(pack.ts:260-286): cache check, 32-byte lookahead read at the object's
offset, header decode, dispatch on the type code (COMMIT = 1 and
TAG = 4 to inf, OFS_DELTA = 6 and REF_DELTA = 7 to _unpackDeltaObject,
everything else - the TREE and BLOB cases are commented out in the
source - leaves dst unset and throws the invalid-object-type Error),
then write the result to the cache. -/
def _unpackGitObject (env : Env) (st : Packs) (fuel : Nat) (cache : Cache)
    (idx : PackedIndex) : Except PackError Bytes × Cache × List IOEvent :=
  match fuel with
  | 0 => (.error .outOfFuel, cache, [])
  | f + 1 =>
    match cacheGet cache idx with
    | some dst => (.ok dst, cache, [])
    | none =>
      let head := env.readAt idx.fileIndex idx.offset 32
      let ev := IOEvent.readPack idx.fileIndex idx.offset 32
      let po := parsePackedObject head
      if po.type = 1 ∨ po.type = 4 then
        let r := infDefault env idx po f
        match r.1 with
        | .ok dst => (.ok dst, cacheSet cache idx dst, ev :: r.2)
        | .error e => (.error e, cache, ev :: r.2)
      else if po.type = 6 ∨ po.type = 7 then
        let r := _unpackDeltaObject env st f cache idx po head
        match r.1 with
        | .ok dst => (.ok dst, cacheSet r.2.1 idx dst, ev :: r.2.2)
        | .error e => (.error e, r.2.1, ev :: r.2.2)
      else
        (.error (.invalidObjectType po.type), cache, [ev])
termination_by structural fuel

/-- _unpackDeltaObject (pack.ts:288-302) and _unpackDeltaObjectSync
(pack.ts:304-318): for OFS_DELTA, decode the backward distance from the
bytes after the header and recursively resolve at
(idx.offset - baseOffset, same fileIndex) through _unpackGitObject; for
REF_DELTA, read the 20-byte base hash after the header and resolve it
through the top-level unpackGitObject, then advance the payload offset
by 20; in both cases inflate the delta payload afterwards and apply
patchDelta to (base, delta). -/
def _unpackDeltaObject (env : Env) (st : Packs) (fuel : Nat) (cache : Cache)
    (idx : PackedIndex) (po : PackedObject) (head : Bytes) :
    Except PackError Bytes × Cache × List IOEvent :=
  match fuel with
  | 0 => (.error .outOfFuel, cache, [])
  | f + 1 =>
    if po.type = 6 then
      let bo := env.readBaseOffset head po.offset
      let po2 : PackedObject := { po with offset := bo.2 }
      let r := _unpackGitObject env st f cache ⟨idx.offset - bo.1, idx.fileIndex⟩
      match r.1 with
      | .error e => (.error e, r.2.1, r.2.2)
      | .ok src =>
        let d := infDefault env idx po2 f
        match d.1 with
        | .error e => (.error e, r.2.1, r.2.2 ++ d.2)
        | .ok delta => (.ok (env.patchDelta src delta), r.2.1, r.2.2 ++ d.2)
    else
      let hash := readHash head po.offset
      let r := unpackGitObject env st f cache hash
      match r.1 with
      | .error e => (.error e, r.2.1, r.2.2)
      | .ok src =>
        let po2 : PackedObject := { po with offset := po.offset + 20 }
        let d := infDefault env idx po2 f
        match d.1 with
        | .error e => (.error e, r.2.1, r.2.2 ++ d.2)
        | .ok delta => (.ok (env.patchDelta src delta), r.2.1, r.2.2 ++ d.2)
termination_by structural fuel

end

/-- One filesystem operation performed during initialization, recorded
in order: a directory listing or an index-file read. -/
inductive FsEvent where
  | listDir (path : String)
  | readIdx (path : String)
deriving DecidableEq, Repr

/-- The filesystem as seen by initialization: listing a directory and
reading a file are pure oracles that may fail (ENOENT and friends). -/
structure FsEnv where
  readDir : String → Except String (List String)
  readFile : String → Except String Bytes

/-- path.join for the fixed two-level layout used by the source. -/
def pathJoin (a b : String) : String := a ++ "/" ++ b

/-- Characters before the first dot of a name: JS name.split applied to
the dot followed by shift (pack.ts:132/157). -/
def upToDot : List Char → List Char
  | [] => []
  | c :: rest => if c = Char.ofNat 46 then [] else c :: upToDot rest

/-- The test of the idx-suffix regex (pack.ts:131/156): the name ends in
dot i d x.  Implemented on the character list so that it reduces. -/
def hasIdxSuffix (n : String) : Bool :=
  n.data.reverse.take 4 == [Char.ofNat 120, Char.ofNat 100, Char.ofNat 105, Char.ofNat 46]

/-- pack.ts:130-132 / 155-157: keep the names matching the idx-suffix
regex and take the part before the first dot. -/
def idxBaseNames (names : List String) : List String :=
  (names.filter hasIdxSuffix).map (fun n => String.mk (upToDot n.data))

/-- The index-reading loop of _initialize (pack.ts:140-143) and
initializeSync (pack.ts:169-172): read <base>.idx for each base name in
listing order (fileIndex = position) and merge into one map; a read or
parse failure propagates (rejects the build). -/
def readIndexFiles (env : FsEnv) (packDir : String) :
    List String → Nat → PackedIndexMap → Except String PackedIndexMap × List FsEvent
  | [], _, m => (.ok m, [])
  | name :: rest, i, m =>
    let p := pathJoin packDir (name ++ ".idx")
    match env.readFile p with
    | .error e => (.error e, [FsEvent.readIdx p])
    | .ok buff =>
      match setupPackedIndexMap buff i m with
      | .error e => (.error e, [FsEvent.readIdx p])
      | .ok m2 =>
        let r := readIndexFiles env packDir rest (i + 1) m2
        (r.1, FsEvent.readIdx p :: r.2)

/-- Packs._initialize (pack.ts:126-145): list gitDir/objects/pack; on a
listing failure or when no index files are present, succeed with an
empty store whose packDir field is gitDir; otherwise read every index
file and build the populated store. -/
def _initStore (env : FsEnv) (gitDir : String) :
    Except String Packs × List FsEvent :=
  let packDir := pathJoin (pathJoin gitDir "objects") "pack"
  match env.readDir packDir with
  | .error _ =>
    (.ok { packDir := gitDir, packFileNames := [], packedIndexMap := [] },
     [FsEvent.listDir packDir])
  | .ok names =>
    let fileNames := idxBaseNames names
    if fileNames.isEmpty then
      (.ok { packDir := gitDir, packFileNames := [], packedIndexMap := [] },
       [FsEvent.listDir packDir])
    else
      let r := readIndexFiles env packDir fileNames 0 []
      match r.1 with
      | .error e => (.error e, FsEvent.listDir packDir :: r.2)
      | .ok m =>
        (.ok { packDir := packDir, packFileNames := fileNames, packedIndexMap := m },
         FsEvent.listDir packDir :: r.2)

/-- The process-wide Store Registry state: the LRU packsCache
(pack.ts:31, capacity 4, most recent first) and the in-flight
processings object (pack.ts:99).  A stored promise is modelled by its
eventual outcome, which is what a later awaiting caller observes. -/
structure Registry where
  packsCache : List (String × Packs)
  processings : List (String × Except String Packs)
deriving DecidableEq

/-- lru-cache get: a hit moves the entry to the front. -/
def lruGet (c : List (String × Packs)) (k : String) :
    Option Packs × List (String × Packs) :=
  match c.find? (fun e => e.1 == k) with
  | none => (none, c)
  | some e => (some e.2, e :: c.filter (fun x => x.1 != k))

/-- lru-cache set with capacity 4: insert at the front, evict beyond 4. -/
def lruSet (c : List (String × Packs)) (k : String) (v : Packs) :
    List (String × Packs) :=
  ((k, v) :: c.filter (fun x => x.1 != k)).take 4

def procLookup (p : List (String × Except String Packs)) (k : String) :
    Option (Except String Packs) :=
  (p.find? (fun e => e.1 == k)).map (·.2)

/-- Packs.initialize (pack.ts:113-124): cached store, else in-flight
result, else run _initialize with its promise registered in
processings.  The continuation that deletes the processings entry and
fills the LRU cache is attached with promise.then and has no rejection
handler, so it runs only when the build fulfills: a rejected build
leaves its entry (holding the rejection) in processings. -/
def initStore (env : FsEnv) (reg : Registry) (gitDir : String) :
    Except String Packs × Registry × List FsEvent :=
  let g := lruGet reg.packsCache gitDir
  match g.1 with
  | some packs => (.ok packs, { reg with packsCache := g.2 }, [])
  | none =>
    match procLookup reg.processings gitDir with
    | some r => (r, reg, [])
    | none =>
      let b := _initStore env gitDir
      match b.1 with
      | .ok packs =>
        (.ok packs, { reg with packsCache := lruSet reg.packsCache gitDir packs }, b.2)
      | .error e =>
        (.error e, { reg with processings := (gitDir, .error e) :: reg.processings }, b.2)

/-- Packs.initializeSync (pack.ts:147-176): the blocking variant; same
build inlined, no in-flight deduplication, the store (empty or not) is
always inserted into the LRU cache on success, and a read or parse
failure propagates leaving the registry untouched. -/
def initStoreSync (env : FsEnv) (reg : Registry) (gitDir : String) :
    Except String Packs × Registry × List FsEvent :=
  let g := lruGet reg.packsCache gitDir
  match g.1 with
  | some packs => (.ok packs, { reg with packsCache := g.2 }, [])
  | none =>
    let packDir := pathJoin (pathJoin gitDir "objects") "pack"
    match env.readDir packDir with
    | .error _ =>
      let packs : Packs := { packDir := gitDir, packFileNames := [], packedIndexMap := [] }
      (.ok packs, { reg with packsCache := lruSet reg.packsCache gitDir packs },
       [FsEvent.listDir packDir])
    | .ok names =>
      let fileNames := idxBaseNames names
      if fileNames.isEmpty then
        let packs : Packs := { packDir := gitDir, packFileNames := [], packedIndexMap := [] }
        (.ok packs, { reg with packsCache := lruSet reg.packsCache gitDir packs },
         [FsEvent.listDir packDir])
      else
        let r := readIndexFiles env packDir fileNames 0 []
        match r.1 with
        | .error e => (.error e, reg, FsEvent.listDir packDir :: r.2)
        | .ok m =>
          let packs : Packs :=
            { packDir := packDir, packFileNames := fileNames, packedIndexMap := m }
          (.ok packs, { reg with packsCache := lruSet reg.packsCache gitDir packs },
           FsEvent.listDir packDir :: r.2)

/-! Concrete fixtures used by the witnesses below. -/

/-- A trivial effect environment. -/
def env0 : Env :=
  { readAt := fun _ _ _ => [],
    inflate := fun _ => .error 0,
    patchDelta := fun a b => a ++ b,
    readBaseOffset := fun _ o => (0, o) }

/-- A store with no pack files and an empty index map. -/
def emptyPacks : Packs :=
  { packDir := "dir", packFileNames := [], packedIndexMap := [] }

/-- An environment serving one commit object at offset 0 of pack file 0:
header byte 0x13 (type 1, size 3), payload inflating to [9, 9]. -/
def env8 : Env :=
  { readAt := fun _ _ len => if len = 32 then [0x13] else List.replicate len 0,
    inflate := fun _ => .ok [9, 9],
    patchDelta := fun a b => a ++ b,
    readBaseOffset := fun _ o => (0, o) }

/-- A store whose index maps hash "aa" to offset 0 of pack file 0. -/
def st8 : Packs :=
  { packDir := "pd", packFileNames := ["p0"], packedIndexMap := [("aa", ⟨0, 0⟩)] }

/-- An environment whose lookahead always decodes to a TREE header
(byte 0x23: type 2, size 3). -/
def env7 : Env :=
  { readAt := fun _ _ _ => [0x23],
    inflate := fun _ => .ok [],
    patchDelta := fun a b => a ++ b,
    readBaseOffset := fun _ o => (0, o) }

/-- An environment for an OFS_DELTA at offset 100: backward distance 50,
delta payload inflating to [5]. -/
def env1c : Env :=
  { readAt := fun _ _ len => if len = 32 then [0x63] else List.replicate len 0,
    inflate := fun _ => .ok [5],
    patchDelta := fun a b => a ++ b,
    readBaseOffset := fun _ o => (50, o + 1) }

/-- An environment whose inflate reports output-buffer-too-small
(errno -5) until the buffer reaches 40 bytes. -/
def env6 : Env :=
  { readAt := fun _ _ len => List.replicate len 1,
    inflate := fun b => if 40 ≤ b.length then .ok [2] else .error (-5),
    patchDelta := fun a b => a ++ b,
    readBaseOffset := fun _ o => (0, o) }

/-- A filesystem with one index file whose read fails. -/
def fsFail : FsEnv :=
  { readDir := fun _ => .ok ["a.idx"],
    readFile := fun _ => .error "EIO" }

/-- A filesystem whose pack directory cannot be listed. -/
def fsAbsent : FsEnv :=
  { readDir := fun _ => .error "ENOENT",
    readFile := fun _ => .ok [] }

/-- The empty registry. -/
def reg0 : Registry := { packsCache := [], processings := [] }

/-- The empty store produced for directory "g". -/
def gEmpty : Packs := { packDir := "g", packFileNames := [], packedIndexMap := [] }

/-- Closed form of the header loop: it adds the low 7 bits of each
continuation byte scaled by x * 128 ^ i, and advances offset by the
number of consumed bytes. -/
theorem headerLoop_closed (rest : Bytes) : ∀ c offset size x : Nat,
    headerLoop rest c offset size x =
      (size + ∑ i ∈ Finset.range (contCount c rest),
          (rest.getD i 0 &&& 0x7f) * (x * 128 ^ i),
       offset + contCount c rest) := by
  induction rest with
  | nil =>
      intro c offset size x
      by_cases h : c &&& 0x80 = 0 <;>
        simp [headerLoop, contCount, h]
  | cons c2 rest ih =>
      intro c offset size x
      by_cases h : c &&& 0x80 = 0
      · simp [headerLoop, contCount, h]
      · rw [headerLoop]
        simp only [h, if_false, contCount, ih, Prod.mk.injEq]
        constructor
        · rw [Nat.add_comm 1 (contCount c2 rest), Finset.sum_range_succ']
          have hs : ∀ i : Nat, ((c2 :: rest).getD (i + 1) 0 &&& 127) * (x * 128 ^ (i + 1)) =
              (rest.getD i 0 &&& 127) * (x * 128 * 128 ^ i) := by
            intro i
            rw [List.getD_cons_succ]
            ring
          simp only [hs, List.getD_cons_zero, pow_zero, mul_one]
          omega
        · omega

/-- Writing to the DecodedObjectCache makes the written entry visible
under its (fileIndex, offset) key. -/
theorem cacheGet_cacheSet (c : Cache) (idx : PackedIndex) (b : Bytes) :
    cacheGet (cacheSet c idx b) idx = some b := by
  simp [cacheGet, cacheSet]

/-- Every successful _unpackGitObject leaves the resolved bytes in the
DecodedObjectCache under the object's (fileIndex, offset) key: either
the entry was already there (early cache return), or the final
_setPackedObjectBuffrToCache write (pack.ts:256) put it there. -/
theorem _unpackGitObject_caches (env : Env) (st : Packs) (fuel : Nat)
    (cache : Cache) (idx : PackedIndex) (dst : Bytes) (c1 : Cache)
    (log : List IOEvent)
    (h : _unpackGitObject env st fuel cache idx = (.ok dst, c1, log)) :
    cacheGet c1 idx = some dst := by
  match fuel with
  | 0 =>
    rw [_unpackGitObject] at h
    exact absurd h (by simp)
  | f + 1 =>
  rw [_unpackGitObject] at h
  split at h
  · rename_i d hd
    injection h with h1 h2
    injection h2 with h2 h3
    subst h2
    rw [hd]
    injection h1 with h1
    rw [h1]
  · dsimp only at h
    split at h
    · split at h
      · rename_i r d hr
        injection h with h1 h2
        injection h2 with h2 h3
        subst h2
        injection h1 with h1
        subst h1
        exact cacheGet_cacheSet _ _ _
      · injection h with h1 _
        exact absurd h1 (by simp)
    · split at h
      · split at h
        · rename_i r d hr
          injection h with h1 h2
          injection h2 with h2 h3
          subst h2
          injection h1 with h1
          subst h1
          exact cacheGet_cacheSet _ _ _
        · injection h with h1 _
          exact absurd h1 (by simp)
      · injection h with h1 _
        exact absurd h1 (by simp)

/-- C4: for every hash not present in the index map, resolution fails
with the not-found Error before any file I/O: the returned log of pack
file operations is empty and the cache is untouched.  The sync variant
unpackGitObjectSync shares this structure verbatim. -/
theorem resolve_absent_notFound (env : Env) (st : Packs) (fuel : Nat)
    (cache : Cache) (hash : String)
    (h : mapLookup st.packedIndexMap hash = none) :
    unpackGitObject env st (fuel + 1) cache hash =
      (.error (.notFound hash), cache, []) := by
  rw [unpackGitObject, h]

/-- C7: when the decoded header type is anything other than COMMIT (1),
TAG (4), OFS_DELTA (6) or REF_DELTA (7) - in particular TREE (2) and
BLOB (3) - _unpackGitObject fails with the invalid-object-type Error
after only the lookahead read; COMMIT and TAG are dispatched to the
decompressor inf, OFS_DELTA and REF_DELTA to _unpackDeltaObject. -/
theorem invalid_type_dispatch (env : Env) (st : Packs) (fuel : Nat)
    (cache : Cache) (idx : PackedIndex) (po : PackedObject)
    (hc : cacheGet cache idx = none)
    (hpo : parsePackedObject (env.readAt idx.fileIndex idx.offset 32) = po) :
    (po.type ≠ 1 → po.type ≠ 4 → po.type ≠ 6 → po.type ≠ 7 →
      _unpackGitObject env st (fuel + 1) cache idx =
        (.error (.invalidObjectType po.type), cache,
         [.readPack idx.fileIndex idx.offset 32])) ∧
    ((po.type = 1 ∨ po.type = 4) →
      (_unpackGitObject env st (fuel + 1) cache idx).1 =
        (infDefault env idx po fuel).1) ∧
    ((po.type = 6 ∨ po.type = 7) →
      (_unpackGitObject env st (fuel + 1) cache idx).1 =
        (_unpackDeltaObject env st fuel cache idx po
          (env.readAt idx.fileIndex idx.offset 32)).1) := by
  refine ⟨?_, ?_, ?_⟩
  · intro h1 h4 h6 h7
    rw [_unpackGitObject, hc]
    simp only [hpo]
    rw [if_neg (by tauto), if_neg (by tauto)]
  · intro h14
    rw [_unpackGitObject, hc]
    simp only [hpo]
    rw [if_pos h14]
    rcases hr : (infDefault env idx po fuel).1 with e | d <;> simp [hr]
  · intro h67
    rw [_unpackGitObject, hc]
    simp only [hpo]
    rw [if_neg (by rcases h67 with h | h <;> simp [h]), if_pos h67]
    rcases hr : (_unpackDeltaObject env st fuel cache idx po
        (env.readAt idx.fileIndex idx.offset 32)).1 with e | d <;> simp [hr]

/-- C6: payload decompression starts from an output buffer of exactly
declaredSize * 2 + 32 bytes read at the payload offset; an inflate
failure with errno -5 (output buffer too small) retries from the same
file position with the buffer grown by 128 bytes, and any other inflate
error propagates immediately with no further read. -/
theorem inflate_retry (env : Env) (idx : PackedIndex) (po : PackedObject)
    (fuel size : Nat) :
    infDefault env idx po fuel = inf env idx po fuel (po.size * 2 + 32) ∧
    (∀ b, env.inflate (env.readAt idx.fileIndex (idx.offset + po.offset) size) = .ok b →
      inf env idx po (fuel + 1) size =
        (.ok b, [.readPack idx.fileIndex (idx.offset + po.offset) size])) ∧
    (∀ errno, errno ≠ -5 →
      env.inflate (env.readAt idx.fileIndex (idx.offset + po.offset) size) = .error errno →
      inf env idx po (fuel + 1) size =
        (.error (.zlibError errno),
         [.readPack idx.fileIndex (idx.offset + po.offset) size])) ∧
    (env.inflate (env.readAt idx.fileIndex (idx.offset + po.offset) size) = .error (-5) →
      inf env idx po (fuel + 1) size =
        ((inf env idx po fuel (size + 128)).1,
         .readPack idx.fileIndex (idx.offset + po.offset) size ::
           (inf env idx po fuel (size + 128)).2)) := by
  refine ⟨rfl, ?_, ?_, ?_⟩
  · intro b hb
    rw [inf, hb]
  · intro errno hne he
    rw [inf, he]
    simp [hne]
  · intro he
    rw [inf, he]
    simp

/-- C5: for every lookahead buffer, the object-header decoder seeds size
from byte 0's low 4 bits, takes the 3-bit type code from bits 4-6 of
byte 0, and, while the most recently read byte has bit 7 set, adds the
next byte's low 7 bits to size scaled by a multiplier that starts at 16
and is multiplied by 128 per continuation byte; the count of consumed
bytes becomes the initial payload offset. -/
theorem packedObject_header_decode (buff : Bytes) :
    parsePackedObject buff =
      { type := (buff.getD 0 0 >>> 4) &&& 7,
        size := (buff.getD 0 0 &&& 15) +
          ∑ i ∈ Finset.range (contCount (buff.getD 0 0) (buff.drop 1)),
            ((buff.drop 1).getD i 0 &&& 0x7f) * (16 * 128 ^ i),
        offset := 1 + contCount (buff.getD 0 0) (buff.drop 1) } := by
  simp only [parsePackedObject, headerLoop_closed]

set_option maxRecDepth 16384 in
/-- C3: on a version-2 index containing an entry whose 32-bit offset has
the high bit set, the parser in the source does not read the 8-byte
big-endian entry of the 64-bit table selected by the lower 31 bits: it
attempts a 32-bit read at byte position off64 * 4294967296, which is out
of range for this (and any realistically sized) buffer, so parsing
throws a RangeError; the documented-format model recovers the correct
offset 2 ^ 32 for the same input. -/
theorem v2_large_offset_defect :
    setupPackedIndexMap idxBuf0 0 [] = .error "Index out of range" ∧
    setupPackedIndexMapSpec idxBuf0 0 [] =
      .ok [("0000000000000000000000000000000000000000",
            { offset := 4294967296, fileIndex := 0 })] := by
  constructor
  · rfl
  · rfl

/-- After a hit, the recency-reordered LRU list still holds the entry. -/
theorem lruGet_after_hit (c : List (String × Packs)) (k : String) (p : Packs)
    (h : (lruGet c k).1 = some p) :
    (lruGet (lruGet c k).2 k).1 = some p := by
  rcases hf : c.find? (fun e => e.1 == k) with _ | e
  · rw [lruGet, hf] at h
    exact absurd h (by simp)
  · have he := List.find?_some hf
    have h2 : e.2 = p := by
      rw [lruGet, hf] at h
      exact Option.some.inj h
    have hrest : (lruGet c k).2 = e :: c.filter (fun x => x.1 != k) := by
      rw [lruGet, hf]
    rw [hrest, lruGet,
      @List.find?_cons_of_pos _ (fun x : String × Packs => x.1 == k) e
        (List.filter (fun x => x.1 != k) c) he]
    dsimp only
    rw [h2]

/-- An lruSet entry is visible to a following lruGet for the same key. -/
theorem lruGet_lruSet (c : List (String × Packs)) (k : String) (v : Packs) :
    (lruGet (lruSet c k v) k).1 = some v := by
  simp [lruGet, lruSet, List.find?]

/-- A cached store short-circuits initStore: no build, no I/O, the
entry is moved to the front of the LRU list. -/
theorem initStore_cache_hit (env : FsEnv) (reg : Registry) (gitDir : String) (p : Packs)
    (h : (lruGet reg.packsCache gitDir).1 = some p) :
    initStore env reg gitDir =
      (.ok p, { reg with packsCache := (lruGet reg.packsCache gitDir).2 }, []) := by
  rw [initStore]
  simp only [h]

/-- A cached store short-circuits initStoreSync in the same way. -/
theorem initStoreSync_cache_hit (env : FsEnv) (reg : Registry) (gitDir : String) (p : Packs)
    (h : (lruGet reg.packsCache gitDir).1 = some p) :
    initStoreSync env reg gitDir =
      (.ok p, { reg with packsCache := (lruGet reg.packsCache gitDir).2 }, []) := by
  rw [initStoreSync]
  simp only [h]

/-- C8: after a successful resolve of a hash, the resolved bytes sit in
the DecodedObjectCache under the object's (packFileIndex, offset) key,
and a second resolve of the same hash on the same store returns the
byte-identical cached buffer with an empty I/O log: no pack file is
opened or read again. -/
theorem resolve_second_call_cached (env : Env) (st : Packs) (fuel fuel2 : Nat)
    (cache : Cache) (hash : String) (dst : Bytes) (c1 : Cache) (log : List IOEvent)
    (h : unpackGitObject env st fuel cache hash = (.ok dst, c1, log)) :
    unpackGitObject env st (fuel2 + 1) c1 hash = (.ok dst, c1, []) ∧
    ∃ idx, mapLookup st.packedIndexMap hash = some idx ∧
      cacheGet c1 idx = some dst := by
  match fuel with
  | 0 =>
    rw [unpackGitObject] at h
    exact absurd h (by simp)
  | f + 1 =>
    rw [unpackGitObject] at h
    rcases hm : mapLookup st.packedIndexMap hash with _ | idx
    · rw [hm] at h
      exact absurd h (by simp)
    · rw [hm] at h
      dsimp only at h
      rcases hcg : cacheGet cache idx with _ | d
      · rw [hcg] at h
        dsimp only at h
        injection h with h1 h2
        injection h2 with h2 h3
        have hkey : cacheGet c1 idx = some dst := by
          refine _unpackGitObject_caches env st f cache idx dst c1
            (_unpackGitObject env st f cache idx).2.2 ?_
          rw [← h1, ← h2]
        refine ⟨?_, idx, rfl, hkey⟩
        rw [unpackGitObject, hm]
        dsimp only
        rw [hkey]
      · rw [hcg] at h
        injection h with h1 h2
        injection h2 with h2 h3
        injection h1 with h1
        subst h2
        subst h1
        refine ⟨?_, idx, rfl, hcg⟩
        rw [unpackGitObject, hm]
        dsimp only
        rw [hcg]

/-- C1: in _unpackDeltaObject, an OFS_DELTA resolves its base by the
recursive _unpackGitObject call at (own offset - decoded backward
distance, same fileIndex); a REF_DELTA reads the 20 bytes after the
header as the base hash and resolves it through the full top-level
unpackGitObject; in both variants the base is fully resolved first (its
I/O precedes the delta-payload read in the log, and a base failure
propagates before any patching), and on success the result is
patchDelta applied to (base bytes, inflated delta bytes). -/
theorem delta_base_resolution (env : Env) (st : Packs) (f : Nat) (cache : Cache)
    (idx : PackedIndex) (po : PackedObject) (head : Bytes) :
    (∀ src c1 l1 delta l2, po.type = 6 →
        _unpackGitObject env st f cache
            ⟨idx.offset - (env.readBaseOffset head po.offset).1, idx.fileIndex⟩ =
          (.ok src, c1, l1) →
        infDefault env idx { po with offset := (env.readBaseOffset head po.offset).2 } f =
          (.ok delta, l2) →
        _unpackDeltaObject env st (f + 1) cache idx po head =
          (.ok (env.patchDelta src delta), c1, l1 ++ l2)) ∧
    (∀ e c1 l1, po.type = 6 →
        _unpackGitObject env st f cache
            ⟨idx.offset - (env.readBaseOffset head po.offset).1, idx.fileIndex⟩ =
          (.error e, c1, l1) →
        _unpackDeltaObject env st (f + 1) cache idx po head = (.error e, c1, l1)) ∧
    (∀ src c1 l1 delta l2, po.type = 7 →
        unpackGitObject env st f cache (readHash head po.offset) = (.ok src, c1, l1) →
        infDefault env idx { po with offset := po.offset + 20 } f = (.ok delta, l2) →
        _unpackDeltaObject env st (f + 1) cache idx po head =
          (.ok (env.patchDelta src delta), c1, l1 ++ l2)) ∧
    (∀ e c1 l1, po.type = 7 →
        unpackGitObject env st f cache (readHash head po.offset) = (.error e, c1, l1) →
        _unpackDeltaObject env st (f + 1) cache idx po head = (.error e, c1, l1)) := by
  refine ⟨?_, ?_, ?_, ?_⟩
  · intro src c1 l1 delta l2 h6 hb hd
    rw [_unpackDeltaObject]
    dsimp only
    rw [if_pos h6, hb]
    dsimp only
    rw [hd]
  · intro e c1 l1 h6 hb
    rw [_unpackDeltaObject]
    dsimp only
    rw [if_pos h6, hb]
  · intro src c1 l1 delta l2 h7 hb hd
    rw [_unpackDeltaObject]
    dsimp only
    rw [if_neg (by simp [h7]), hb]
    dsimp only
    rw [hd]
  · intro e c1 l1 h7 hb
    rw [_unpackDeltaObject]
    dsimp only
    rw [if_neg (by simp [h7]), hb]

/-- C2 counterexample: a build for directory d whose index-file read
fails rejects, and the in-flight registry afterwards still contains an
entry for d (holding the failure), contrary to the claim that the entry
is gone whenever the build completes. -/
theorem inflight_entry_survives_failure :
    initStore fsFail reg0 "d" =
      (.error "EIO",
       { packsCache := [], processings := [("d", .error "EIO")] },
       [.listDir "d/objects/pack", .readIdx "d/objects/pack/a.idx"]) ∧
    procLookup (initStore fsFail reg0 "d").2.1.processings "d" ≠ none := by
  constructor
  · decide
  · decide

/-- C2 amended: the in-flight entry is gone after a build that
fulfills, but after a failing build the entry remains, holding the
failure, and a later initStore call for the same directory receives
that stored failure with no filesystem activity (no fresh build). -/
theorem inflight_registry_after_build (env : FsEnv) (reg : Registry) (gitDir : String)
    (hc : (lruGet reg.packsCache gitDir).1 = none)
    (hp : procLookup reg.processings gitDir = none) :
    (∀ packs reg2 log, initStore env reg gitDir = (.ok packs, reg2, log) →
      procLookup reg2.processings gitDir = none) ∧
    (∀ e reg2 log, initStore env reg gitDir = (.error e, reg2, log) →
      procLookup reg2.processings gitDir = some (.error e) ∧
      initStore env reg2 gitDir = (.error e, reg2, [])) := by
  constructor
  · intro packs reg2 log h
    rw [initStore] at h
    simp only [hc, hp] at h
    rcases hb : (_initStore env gitDir).1 with e | p
    · rw [hb] at h
      exact absurd h (by simp)
    · rw [hb] at h
      injection h with h1 h2
      injection h2 with h2 h3
      rw [← h2]
      exact hp
  · intro e reg2 log h
    rw [initStore] at h
    simp only [hc, hp] at h
    rcases hb : (_initStore env gitDir).1 with e2 | p
    · rw [hb] at h
      injection h with h1 h2
      injection h2 with h2 h3
      injection h1 with h1
      subst h1
      subst h2
      constructor
      · simp [procLookup, List.find?]
      · rw [initStore]
        simp only [hc]
        simp [procLookup, List.find?]
    · rw [hb] at h
      exact absurd h (by simp)

/-- C9: when the pack directory is absent, unreadable, or contains no
index files, the build succeeds with a store with no pack file names
(hasPackFiles = false) and an empty index map - for the async build
_initStore and the blocking initStoreSync alike - and every resolve
on that store fails with notFound while performing no pack-file I/O. -/
theorem empty_dir_initialization (env : FsEnv) (gitDir : String)
    (h : ∀ names, env.readDir (pathJoin (pathJoin gitDir "objects") "pack") = .ok names →
      idxBaseNames names = []) :
    _initStore env gitDir =
      (.ok { packDir := gitDir, packFileNames := [], packedIndexMap := [] },
       [.listDir (pathJoin (pathJoin gitDir "objects") "pack")]) ∧
    (∀ reg, (lruGet reg.packsCache gitDir).1 = none →
      (initStoreSync env reg gitDir).1 =
        .ok { packDir := gitDir, packFileNames := [], packedIndexMap := [] }) ∧
    Packs.hasPackFiles { packDir := gitDir, packFileNames := [], packedIndexMap := [] }
      = false ∧
    (∀ envR fuel cache hash,
      unpackGitObject envR { packDir := gitDir, packFileNames := [], packedIndexMap := [] }
          (fuel + 1) cache hash =
        (.error (.notFound hash), cache, [])) := by
  refine ⟨?_, ?_, rfl, ?_⟩
  · rw [_initStore]
    dsimp only
    rcases hd : env.readDir (pathJoin (pathJoin gitDir "objects") "pack") with e | names
    · rfl
    · have he := h names hd
      dsimp only
      rw [if_pos (by rw [he]; rfl)]
  · intro reg hreg
    rw [initStoreSync]
    simp only [hreg]
    rcases hd : env.readDir (pathJoin (pathJoin gitDir "objects") "pack") with e | names
    · rfl
    · have he := h names hd
      dsimp only
      rw [if_pos (by rw [he]; rfl)]
  · intro envR fuel cache hash
    rw [unpackGitObject]
    rfl

/-- C10: both initStore and initStoreSync insert the resulting store
(empty or not) into the process-wide LRU registry on success, so a
subsequent call for the same directory - under any filesystem
environment whatsoever - returns the identical store value and performs
no filesystem operation (no directory re-listing, no index re-read). -/
theorem store_registry_caches (env env2 : FsEnv) (reg : Registry) (gitDir : String)
    (hp : procLookup reg.processings gitDir = none) :
    (∀ packs reg2 log, initStore env reg gitDir = (.ok packs, reg2, log) →
      (lruGet reg2.packsCache gitDir).1 = some packs ∧
      (initStore env2 reg2 gitDir).1 = .ok packs ∧
      (initStore env2 reg2 gitDir).2.2 = []) ∧
    (∀ packs reg2 log, initStoreSync env reg gitDir = (.ok packs, reg2, log) →
      (lruGet reg2.packsCache gitDir).1 = some packs ∧
      (initStoreSync env2 reg2 gitDir).1 = .ok packs ∧
      (initStoreSync env2 reg2 gitDir).2.2 = []) := by
  constructor
  · intro packs reg2 log h
    have hkey : (lruGet reg2.packsCache gitDir).1 = some packs := by
      rw [initStore] at h
      rcases hg : (lruGet reg.packsCache gitDir).1 with _ | q
      · simp only [hg, hp] at h
        rcases hb : (_initStore env gitDir).1 with e | p
        · rw [hb] at h
          exact absurd h (by simp)
        · rw [hb] at h
          injection h with h1 h2
          injection h2 with h2 h3
          injection h1 with h1
          subst h1
          rw [← h2]
          exact lruGet_lruSet _ _ _
      · simp only [hg] at h
        injection h with h1 h2
        injection h2 with h2 h3
        injection h1 with h1
        subst h1
        rw [← h2]
        exact lruGet_after_hit _ _ _ hg
    refine ⟨hkey, ?_, ?_⟩
    · rw [initStore_cache_hit env2 reg2 gitDir packs hkey]
    · rw [initStore_cache_hit env2 reg2 gitDir packs hkey]
  · intro packs reg2 log h
    have hkey : (lruGet reg2.packsCache gitDir).1 = some packs := by
      rw [initStoreSync] at h
      rcases hg : (lruGet reg.packsCache gitDir).1 with _ | q
      · simp only [hg] at h
        rcases hd : env.readDir (pathJoin (pathJoin gitDir "objects") "pack") with e | names
        · rw [hd] at h
          dsimp only at h
          injection h with h1 h2
          injection h2 with h2 h3
          injection h1 with h1
          subst h1
          rw [← h2]
          exact lruGet_lruSet _ _ _
        · rw [hd] at h
          dsimp only at h
          by_cases hn : (idxBaseNames names).isEmpty
          · rw [if_pos hn] at h
            injection h with h1 h2
            injection h2 with h2 h3
            injection h1 with h1
            subst h1
            rw [← h2]
            exact lruGet_lruSet _ _ _
          · rw [if_neg hn] at h
            rcases hr : (readIndexFiles env (pathJoin (pathJoin gitDir "objects") "pack")
                (idxBaseNames names) 0 []).1 with e | m
            · rw [hr] at h
              exact absurd h (by simp)
            · rw [hr] at h
              injection h with h1 h2
              injection h2 with h2 h3
              injection h1 with h1
              subst h1
              rw [← h2]
              exact lruGet_lruSet _ _ _
      · simp only [hg] at h
        injection h with h1 h2
        injection h2 with h2 h3
        injection h1 with h1
        subst h1
        rw [← h2]
        exact lruGet_after_hit _ _ _ hg
    refine ⟨hkey, ?_, ?_⟩
    · rw [initStoreSync_cache_hit env2 reg2 gitDir packs hkey]
    · rw [initStoreSync_cache_hit env2 reg2 gitDir packs hkey]

/-- C4 witness: on a store with an empty index map, resolving hash "aa"
fails with notFound, touching no file and leaving the cache alone. -/
theorem resolve_absent_notFound_witness :
    unpackGitObject env0 emptyPacks 1 [] "aa" = (.error (.notFound "aa"), [], []) :=
  resolve_absent_notFound env0 emptyPacks 0 [] "aa" rfl

/-- C7 witness: a TREE header (type code 2) at offset 0 makes
_unpackGitObject fail with invalidObjectType 2 after just the one
32-byte lookahead read. -/
theorem invalid_type_dispatch_witness :
    _unpackGitObject env7 emptyPacks 1 [] ⟨0, 0⟩ =
      (.error (.invalidObjectType 2), [], [.readPack 0 0 32]) :=
  (invalid_type_dispatch env7 emptyPacks 0 [] ⟨0, 0⟩ ⟨2, 3, 1⟩ rfl (by decide)).1
    (by decide) (by decide) (by decide) (by decide)

/-- C6 witness: a declared size of 3 gives a first buffer of 38 bytes
read at payload offset 1; inflate reports errno -5, so inf retries at
the same position with 166 bytes and succeeds. -/
theorem inflate_retry_witness :
    inf env6 ⟨0, 0⟩ ⟨1, 3, 1⟩ 2 38 =
      (.ok [2], [.readPack 0 1 38, .readPack 0 1 166]) := by
  rw [(inflate_retry env6 ⟨0, 0⟩ ⟨1, 3, 1⟩ 1 38).2.2.2 (by decide)]
  decide

/-- C8 witness: after the commit at hash "aa" is resolved once (filling
the cache with key (0, 0)), a second resolve returns the identical
bytes with an empty I/O log. -/
theorem resolve_second_call_cached_witness :
    unpackGitObject env8 st8 1 [((0, 0), [9, 9])] "aa" =
      (.ok [9, 9], [((0, 0), [9, 9])], []) :=
  (resolve_second_call_cached env8 st8 3 0 [] "aa" [9, 9] [((0, 0), [9, 9])]
    [.openPack 0, .readPack 0 0 32, .readPack 0 1 38, .closePack 0] (by decide)).1

/-- C1 witness: an OFS_DELTA at offset 100 with backward distance 50
resolves its base at offset 50 (already cached as [7, 7]), inflates the
delta payload to [5], and returns patchDelta of the two. -/
theorem delta_base_resolution_witness :
    _unpackDeltaObject env1c emptyPacks 2 [((0, 50), [7, 7])] ⟨100, 0⟩ ⟨6, 3, 1⟩ [0x63] =
      (.ok [7, 7, 5], [((0, 50), [7, 7])], [.readPack 0 102 38]) :=
  (delta_base_resolution env1c emptyPacks 1 [((0, 50), [7, 7])] ⟨100, 0⟩ ⟨6, 3, 1⟩
    [0x63]).1 [7, 7] [((0, 50), [7, 7])] [] [5] [.readPack 0 102 38] rfl
    (by decide) (by decide)

/-- C2 witness (amended claim): after the failing build for d, the
in-flight registry maps d to the stored failure, and the next call for
d returns that same failure with no filesystem activity. -/
theorem inflight_registry_after_build_witness :
    procLookup
        ({ packsCache := [], processings := [("d", .error "EIO")] } : Registry).processings
        "d" = some (.error "EIO") ∧
    initStore fsFail { packsCache := [], processings := [("d", .error "EIO")] } "d" =
      (.error "EIO", { packsCache := [], processings := [("d", .error "EIO")] }, []) :=
  (inflight_registry_after_build fsFail reg0 "d" rfl rfl).2 "EIO"
    { packsCache := [], processings := [("d", .error "EIO")] }
    [.listDir "d/objects/pack", .readIdx "d/objects/pack/a.idx"] (by decide)

/-- C9 witness: with an unlistable pack directory, the build for "g"
succeeds with the empty store and resolve on it fails with notFound and
no I/O. -/
theorem empty_dir_initialization_witness :
    _initStore fsAbsent "g" = (.ok gEmpty, [.listDir "g/objects/pack"]) ∧
    unpackGitObject env0 gEmpty 1 [] "bb" = (.error (.notFound "bb"), [], []) := by
  have h := empty_dir_initialization fsAbsent "g"
    (fun names hn => absurd hn (by simp [fsAbsent]))
  exact ⟨h.1, h.2.2.2 env0 0 [] "bb"⟩

/-- C10 witness: initStoreSync for "g" on the empty registry inserts
the empty store into the LRU cache, and a second call - even against a
filesystem that would fail - returns the same store with no filesystem
events. -/
theorem store_registry_caches_witness :
    (lruGet ([("g", gEmpty)] : List (String × Packs)) "g").1 = some gEmpty ∧
    (initStoreSync fsFail { packsCache := [("g", gEmpty)], processings := [] } "g").1 =
      .ok gEmpty ∧
    (initStoreSync fsFail { packsCache := [("g", gEmpty)], processings := [] } "g").2.2 =
      [] :=
  (store_registry_caches fsAbsent fsFail reg0 "g" rfl).2 gEmpty
    { packsCache := [("g", gEmpty)], processings := [] }
    [.listDir "g/objects/pack"] (by decide)

end TinyCommitWalker
